import Mathlib

/-!
Shallow embedding of the paged key-value cache allocator of
`src/MaxText/page_managers.py` (class `PageManager` and its state record
`PageState`), together with proofs about its three operations
`release_slot_pages`, `reserve_prefill_slot_pages` and
`reserve_decode_step_pages`.

Modelling conventions, chosen once and used uniformly:

* The source stores its arrays in a `flax.struct` record and mutates them in
  place with numpy-style item assignment (`page_status[page_idx] = 1`, ...).
  We model each array as a `List Nat` (rows of the mapping as
  `List (List Nat)`) and every in-place item assignment as a functional
  `List.set`; each operation consumes a state value and returns the state as
  mutated when the operation finishes or raises.  int32 values are modelled
  as `Nat` (all quantities in scope are nonnegative and far below 2^31);
  the two places where Python evaluates a signed expression —
  `(x - 1) % page_size` and the `!= self.num_pages - 1` assert comparison —
  are computed in `Int` to keep the signed semantics exact.
* `jnp.ceil(true_length / self.page_size).astype(jnp.int32)` is modelled as
  exact ceiling division on `Nat`; for the int32 magnitudes the allocator
  handles this is the value the float computation produces.
* A numpy read or write at an out-of-range index raises `IndexError`; where
  such an access can only occur for malformed states we model the read as
  `List.getD _ 0` (default 0) and the write as `List.set` (a no-op out of
  range).  Theorems that depend on an access being in range carry explicit
  length hypotheses.
* Exceptions raised by the source (`assert`, an unbound local, indexing a
  1-tuple out of range) are modelled by an error value returned next to the
  state that holds the in-place mutations performed before the raise; a
  rebind of a local name to a fresh array (decode's lines 145-148) is
  discarded by the raise and does not reach the caller's table.
-/

/-- Mirrors the `PageState` flax dataclass (`page_managers.py` lines 29-36). -/
structure PageState where
  page_status : List Nat
  seq_page_idx_mappings : List (List Nat)
  seq_lengths : List Nat
  seq_num_pages : List Nat
  seq_page_indices : List Nat
  seq_page_slice_indices : List Nat
deriving DecidableEq, Repr

/-- Construction parameters of `PageManager.__init__` (lines 41-68). -/
structure PageManager where
  num_pages : Nat
  page_size : Nat
  slots : Nat
  max_target_length : Nat
  max_prefill_predict_length : Nat
deriving DecidableEq, Repr

/-- `max_pages_per_slot = max_target_length // page_size` (line 51). -/
def PageManager.max_pages_per_slot (pm : PageManager) : Nat :=
  pm.max_target_length / pm.page_size

/-- `max_pages_per_prefill = max_prefill_predict_length // page_size` (line 52). -/
def PageManager.max_pages_per_prefill (pm : PageManager) : Nat :=
  pm.max_prefill_predict_length / pm.page_size

/-- The zeroed `PageState` built at construction (lines 53-60). -/
def init_page_state (pm : PageManager) : PageState :=
  { page_status := List.replicate pm.num_pages 0
    seq_page_idx_mappings :=
      List.replicate pm.slots (List.replicate pm.max_pages_per_slot 0)
    seq_lengths := List.replicate pm.slots 0
    seq_num_pages := List.replicate pm.slots 0
    seq_page_indices := List.replicate pm.slots 0
    seq_page_slice_indices := List.replicate pm.slots 0 }

/-- Exceptions the traced operations can raise. -/
inductive PMError
  /-- the `assert ... != self.num_pages-1, "All pages are in use."` fired
  (lines 115 and 153). -/
  | allPagesInUse
  /-- `reserve_prefill_slot_pages` with zero loop iterations reaches line 122
  with the local `page_idx` never assigned (Python `NameError`). -/
  | nameError
  /-- `reserve_decode_step_pages` evaluates `updating_slots[i]` for `i ≥ 1`;
  `updating_slots` is the 1-tuple returned by `jnp.where` (line 151), so
  Python raises `IndexError: tuple index out of range` (line 154). -/
  | tupleIndexError
deriving DecidableEq, Repr

/-- `jnp.ceil(a / b)` on nonnegative ints: exact ceiling division. -/
def ceilDiv (a b : Nat) : Nat := (a + b - 1) / b

/-- `(x - 1) % page_size` with Python's signed modulo (the dividend can be
`-1` when `x = 0`). -/
def sliceIdx (x : Nat) (page_size : Nat) : Nat :=
  (((x : Int) - 1) % (page_size : Int)).toNat

/-- First index at which the list holds a `0`, if any.  This is the first
(and with `size=1` the only) index returned by `jnp.where(arr == 0, size=1)`. -/
def scanFree : List Nat → Option Nat
  | [] => none
  | v :: t => if v = 0 then some 0 else (scanFree t).map (fun j => j + 1)

/-- `page_idx = jnp.where((page_status[1:]==0), size=1)[0]` (lines 116 and
155): the first index of `page_status[1:]` holding a `Free` page.  Note the
index is an offset into the slice — the source never adds the `1` back — and
`jnp.where` pads with `0` when no entry matches. -/
def firstFreeSlice (page_status : List Nat) : Nat :=
  (scanFree (page_status.drop 1)).getD 0

/-- `jnp.count_nonzero(page_status[1:])` (lines 115 and 153). -/
def usedCount (page_status : List Nat) : Nat :=
  (page_status.drop 1).countP (fun v => !(v == 0))

/-- The pool-exhaustion assert condition
`jnp.count_nonzero(page_status[1:]) != self.num_pages-1` (fires when equal);
`self.num_pages-1` is a Python int, hence the `Int` comparison. -/
def allPagesInUseCheck (pm : PageManager) (page_status : List Nat) : Bool :=
  decide ((usedCount page_status : Int) = (pm.num_pages : Int) - 1)

/-- The release loop (lines 80-83), iteration `i` of `n`:

```
page_idx = seq_page_idx_mappings[slot][i]
page_status[page_idx] = 0
seq_page_idx_mappings[slot] = 0
```

The third line assigns the scalar `0` to the whole row (numpy broadcast), so
from the second iteration on `page_idx` reads `0` from the cleared row. -/
def releaseLoop (slot : Nat) :
    Nat → Nat → List Nat → List (List Nat) → List Nat × List (List Nat)
  | 0, _, page_status, seq_page_idx_mappings => (page_status, seq_page_idx_mappings)
  | fuel + 1, i, page_status, seq_page_idx_mappings =>
      let row := seq_page_idx_mappings.getD slot []
      let page_idx := row.getD i 0
      releaseLoop slot fuel (i + 1) (page_status.set page_idx 0)
        (seq_page_idx_mappings.set slot (row.map (fun _ => 0)))

/-- `PageManager.release_slot_pages` (lines 70-97). -/
def release_slot_pages (slot : Nat) (T : PageState) : PageState :=
  let res := releaseLoop slot (T.seq_num_pages.getD slot 0) 0
    T.page_status T.seq_page_idx_mappings
  { page_status := res.1
    seq_page_idx_mappings := res.2
    seq_lengths := T.seq_lengths.set slot 0
    seq_num_pages := T.seq_num_pages.set slot 0
    seq_page_indices := T.seq_page_indices.set slot 0
    seq_page_slice_indices := T.seq_page_slice_indices.set slot 0 }

/-- The prefill allocation loop (lines 114-118), iteration `i` of
`prefill_slot_num_pages`:

```
assert jnp.count_nonzero(page_status[1:]) != self.num_pages-1, "All pages are in use."
page_idx = jnp.where((page_status[1:]==0), size=1)[0]
page_status[page_idx] = 1
seq_page_idx_mappings[slot][i] = page_idx
```

Returns the status, the rows, the last value of `page_idx` (if any iteration
ran) and the exception (if the assert fired; the state returned next to it
holds the mutations already committed at that point). -/
def prefillLoop (pm : PageManager) (slot : Nat) :
    Nat → Nat → List Nat → List (List Nat) → Option Nat →
      List Nat × List (List Nat) × Option Nat × Option PMError
  | 0, _, page_status, rows, last => (page_status, rows, last, none)
  | fuel + 1, i, page_status, rows, last =>
      if allPagesInUseCheck pm page_status then
        (page_status, rows, last, some PMError.allPagesInUse)
      else
        let page_idx := firstFreeSlice page_status
        let row := rows.getD slot []
        prefillLoop pm slot fuel (i + 1) (page_status.set page_idx 1)
          (rows.set slot (row.set i page_idx)) (some page_idx)

/-- `PageManager.reserve_prefill_slot_pages` (lines 99-132).  The trailing
writes (lines 120-123) run in source order; when the loop ran zero times the
read of `page_idx` at line 122 raises `NameError` after `seq_lengths[slot]`
and `seq_num_pages[slot]` were already written. -/
def reserve_prefill_slot_pages (pm : PageManager) (slot : Nat) (true_length : Nat)
    (T : PageState) : PageState × Option PMError :=
  let T1 := release_slot_pages slot T
  let prefill_slot_num_pages := ceilDiv true_length pm.page_size
  let prefill_slot_page_slice_idx := sliceIdx true_length pm.page_size
  match prefillLoop pm slot prefill_slot_num_pages 0
      T1.page_status T1.seq_page_idx_mappings none with
  | (st, rw, _, some e) =>
      ({ T1 with page_status := st, seq_page_idx_mappings := rw }, some e)
  | (st, rw, last, none) =>
      let T2 : PageState :=
        { page_status := st
          seq_page_idx_mappings := rw
          seq_lengths := T1.seq_lengths.set slot true_length
          seq_num_pages := T1.seq_num_pages.set slot prefill_slot_num_pages
          seq_page_indices := T1.seq_page_indices
          seq_page_slice_indices := T1.seq_page_slice_indices }
      match last with
      | none => (T2, some PMError.nameError)
      | some page_idx =>
          ({ T2 with
              seq_page_indices := T1.seq_page_indices.set slot page_idx
              seq_page_slice_indices :=
                T1.seq_page_slice_indices.set slot prefill_slot_page_slice_idx }, none)

/-- `jnp.where(seq_new_page > 0, size=self.slots)` (line 151): ascending
positions with a positive entry, zero-padded to `slots` entries.  The source
binds the returned 1-tuple itself to `updating_slots`; `updating_slots[0]`
is this index array. -/
def updatingSlotsArr (slots : Nat) (seq_new_page : List Int) : List Nat :=
  let idxs := (List.range seq_new_page.length).filter
    (fun p => decide (0 < seq_new_page.getD p 0))
  idxs ++ List.replicate (slots - idxs.length) 0

/-- `seq_lengths` after line 144, `seq_lengths += jax.lax.cond(seq_lengths > 0, 1, 0)`,
read as the elementwise conditional increment it denotes on the traced array
(add 1 to the active slots, 0 to the empty ones). -/
def decodeLengths (T : PageState) : List Nat :=
  T.seq_lengths.map (fun v => if 0 < v then v + 1 else v)

/-- `seq_num_pages = jnp.ceil(seq_lengths / self.page_size).astype(jnp.int32)`
(line 146), computed from the incremented lengths for every slot. -/
def decodeNumPages (pm : PageManager) (T : PageState) : List Nat :=
  (decodeLengths T).map (fun v => ceilDiv v pm.page_size)

/-- `seq_page_slice_indices = (seq_lengths - 1) % self.page_size` (line 147),
computed for every slot, the empty ones included
(`(0 - 1) % page_size = page_size - 1`). -/
def decodeSliceIndices (pm : PageManager) (T : PageState) : List Nat :=
  (decodeLengths T).map (fun v => sliceIdx v pm.page_size)

/-- `seq_new_page = seq_num_pages - current_seq_num_pages` (line 148); the
names on lines 145-147 were rebound to fresh arrays, so
`current_seq_num_pages` keeps the old values. -/
def decodeNewPage (pm : PageManager) (T : PageState) : List Int :=
  List.zipWith (fun a b => (a : Int) - (b : Int)) (decodeNumPages pm T) T.seq_num_pages

/-- `num_new_pages = jnp.count_nonzero(seq_new_page)` (line 149). -/
def decodeNumNew (pm : PageManager) (T : PageState) : Nat :=
  (decodeNewPage pm T).countP (fun v => !(v == 0))

/-- The value a completed decode step returns (lines 160-167) before any
allocation: the return statement is built from the local names, so it
carries the incremented lengths and the recomputed page counts and slice
indices of lines 144-147. -/
def decodeBase (pm : PageManager) (T : PageState) : PageState :=
  { T with
      seq_lengths := decodeLengths T
      seq_num_pages := decodeNumPages pm T
      seq_page_slice_indices := decodeSliceIndices pm T }

/-- The returned value after iteration `0` of the allocation loop
(lines 152-158) when the call completes: `slot = updating_slots[0]` is the
whole padded index array.  `page_status[page_idx] = 1` marks the scan's
slice index used; `seq_page_idx_mappings[slot][...] = page_idx` goes
through advanced indexing with the array `slot`, which copies, so the row
write does not land (no-op); `seq_page_indices[slot] = page_idx` writes
`page_idx` at every position listed in the padded array. -/
def decodeAllocState (pm : PageManager) (T : PageState) : PageState :=
  { decodeBase pm T with
      page_status := T.page_status.set (firstFreeSlice T.page_status) 1
      seq_page_indices :=
        (updatingSlotsArr pm.slots (decodeNewPage pm T)).foldl
          (fun a p => a.set p (firstFreeSlice T.page_status)) T.seq_page_indices }

/-- The caller-visible state when a decode step raises before the loop wrote
anything: only in-place mutations persist across a raise, and up to that
point the only in-place write is line 144's `seq_lengths += ...`.  Lines
145-148 merely rebind locals to fresh arrays, which the raise discards, so
the caller's table keeps the old `seq_num_pages` and
`seq_page_slice_indices`. -/
def decodeRaiseBase (T : PageState) : PageState :=
  { T with seq_lengths := decodeLengths T }

/-- The caller-visible state when a decode step raises after the loop's
iteration `0`: the in-place length increment plus iteration 0's in-place
`page_status` and `seq_page_indices` writes (the mapping write lands in an
advanced-indexing copy); the local rebinds of lines 146-147 are still
discarded by the raise. -/
def decodeRaiseAlloc (pm : PageManager) (T : PageState) : PageState :=
  { T with
      seq_lengths := decodeLengths T
      page_status := T.page_status.set (firstFreeSlice T.page_status) 1
      seq_page_indices :=
        (updatingSlotsArr pm.slots (decodeNewPage pm T)).foldl
          (fun a p => a.set p (firstFreeSlice T.page_status)) T.seq_page_indices }

/-- `PageManager.reserve_decode_step_pages` (lines 134-167).  The loop
(lines 152-158) runs `num_new_pages` iterations; iteration `0` commits its
in-place writes; iteration `1` re-checks the exhaustion assert and then
raises `IndexError: tuple index out of range` at `updating_slots[1]` (the
`jnp.where` result bound on line 151 is a 1-tuple).  A completed call
returns the rebound local arrays (`decodeBase`/`decodeAllocState`); a raise
leaves the caller only the in-place mutations
(`decodeRaiseBase`/`decodeRaiseAlloc`). -/
def reserve_decode_step_pages (pm : PageManager) (T : PageState) :
    PageState × Option PMError :=
  if decodeNumNew pm T = 0 then (decodeBase pm T, none)
  else if allPagesInUseCheck pm T.page_status then
    (decodeRaiseBase T, some PMError.allPagesInUse)
  else if decodeNumNew pm T = 1 then (decodeAllocState pm T, none)
  else if allPagesInUseCheck pm
      (T.page_status.set (firstFreeSlice T.page_status) 1) then
    (decodeRaiseAlloc pm T, some PMError.allPagesInUse)
  else (decodeRaiseAlloc pm T, some PMError.tupleIndexError)


/-- Page tables reachable from the zeroed construction-time table by any
sequence of the three operations.  A prefill or decode call that raises
leaves its in-place mutations in the caller's arrays, so the state component
is taken whether or not the call raised. -/
inductive Reachable (pm : PageManager) : PageState → Prop
  | init : Reachable pm (init_page_state pm)
  | release (slot : Nat) {T : PageState} :
      Reachable pm T → Reachable pm (release_slot_pages slot T)
  | prefill (slot true_length : Nat) {T : PageState} :
      Reachable pm T →
      Reachable pm (reserve_prefill_slot_pages pm slot true_length T).1
  | decode {T : PageState} :
      Reachable pm T → Reachable pm (reserve_decode_step_pages pm T).1

/-- Page tables reachable from the zeroed construction-time table through
operations that completed without raising (the scheduler's normal regime:
every call returned a table). -/
inductive ReachableOk (pm : PageManager) : PageState → Prop
  | init : ReachableOk pm (init_page_state pm)
  | release (slot : Nat) {T : PageState} :
      ReachableOk pm T → ReachableOk pm (release_slot_pages slot T)
  | prefill (slot true_length : Nat) {T T' : PageState} :
      ReachableOk pm T →
      reserve_prefill_slot_pages pm slot true_length T = (T', none) →
      ReachableOk pm T'
  | decode {T T' : PageState} :
      ReachableOk pm T →
      reserve_decode_step_pages pm T = (T', none) →
      ReachableOk pm T'


/-! ### Concrete fixtures used by the claim evaluations -/

/-- Scenario A configuration: `num_pages=5, page_size=4, slots=2`, with
`max_target_length=8` and `max_prefill_predict_length=8` (so
`max_pages_per_slot = max_pages_per_prefill = 2`). -/
def pmScenarioA : PageManager := ⟨5, 4, 2, 8, 8⟩

/-- The table the traced code produces for Scenario A
(`reserve_prefill_slot_pages` of slot 0 with `true_length = 5` on the zeroed
table): only the sentinel page 0 is marked Used. -/
def prefillA : PageState :=
  ⟨[1, 0, 0, 0, 0], [[0, 0], [0, 0]], [5, 0], [2, 0], [0, 0], [0, 0]⟩

/-- Two pages (one usable), one slot. -/
def pmTwoPages : PageManager := ⟨2, 4, 1, 4, 4⟩

/-- `num_pages=5` but `max_prefill_predict_length=4`, so
`max_pages_per_prefill = 1`. -/
def pmSmallPrefill : PageManager := ⟨5, 4, 2, 8, 4⟩

/-- Two pages (one usable), one slot, room for two pages per slot. -/
def pmOneSlot : PageManager := ⟨2, 4, 1, 8, 8⟩

/-- One slot of length 4 about to cross a page boundary while the single
usable page is already Used: the next decode step must fail. -/
def tableDecodeFull : PageState := ⟨[0, 1], [[0, 0]], [4], [1], [0], [3]⟩

/-- Slot 0 owns pages 1 and 2 (both Used). -/
def tableReleaseLeak : PageState := ⟨[0, 1, 1], [[1, 2]], [8], [2], [2], [3]⟩

/-- Sentinel status nonzero and slot 0's row holds 1 and 2 in both of its
cells: releasing slot 0 writes page 0's status although 0 is not in the
row. -/
def tableFrameCex : PageState := ⟨[1, 1, 1], [[1, 2]], [9], [2], [2], [0]⟩

/-- Two slots; slot 0 owns page 1, slot 1 empty, page 2 free. -/
def tableFrameWit : PageState :=
  ⟨[0, 1, 0], [[1], [0]], [4, 0], [1, 0], [1, 0], [3, 0]⟩

/-- `page_size = 1`, five pages, two slots: every decode step makes every
active slot cross a page boundary, so two active slots make the decode loop
raise the tuple `IndexError` on its second iteration. -/
def pmTinyPages : PageManager := ⟨5, 1, 2, 4, 4⟩

/-- Both slots of `pmTinyPages` prefilled to length 1 (both calls succeed). -/
def chainT2 : PageState :=
  (reserve_prefill_slot_pages pmTinyPages 1 1
    (reserve_prefill_slot_pages pmTinyPages 0 1 (init_page_state pmTinyPages)).1).1

/-- The caller's table after the decode step on `chainT2` raises the tuple
`IndexError`: lengths incremented in place to `[2, 2]`, `seq_num_pages`
stale at `[1, 1]`. -/
def chainT3 : PageState := (reserve_decode_step_pages pmTinyPages chainT2).1

/-- Releasing slot 0 of `chainT3`: a table produced by
`release_slot_pages` in which slot 1 violates the page-count invariant. -/
def chainT4 : PageState := release_slot_pages 0 chainT3

/-! ### List toolkit -/

theorem getD_set_self {α : Type} :
    ∀ (l : List α) (i : Nat) (v d : α), i < l.length → (l.set i v).getD i d = v
  | [], i, _, _, h => absurd h (by simp)
  | _ :: _, 0, _, _, _ => rfl
  | _ :: t, i + 1, v, d, h => by
      simpa using getD_set_self t i v d (by simpa using h)

theorem getD_set_ne {α : Type} :
    ∀ (l : List α) (i j : Nat) (v d : α), j ≠ i → (l.set i v).getD j d = l.getD j d
  | [], _, _, _, _, _ => rfl
  | _ :: _, 0, 0, _, _, h => absurd rfl h
  | _ :: _, 0, _ + 1, _, _, _ => by simp
  | _ :: _, _ + 1, 0, _, _, _ => by simp
  | _ :: t, i + 1, j + 1, v, d, h => by
      simpa using getD_set_ne t i j v d (by omega)

/-- Writing the default at an index makes `getD` there the default, in or out
of range. -/
theorem getD_set_default {α : Type} :
    ∀ (l : List α) (i : Nat) (d : α), (l.set i d).getD i d = d
  | [], _, _ => rfl
  | _ :: _, 0, _ => rfl
  | _ :: t, i + 1, d => by simpa using getD_set_default t i d

theorem getD_map_zero (f : Nat → Nat) (hf : f 0 = 0) :
    ∀ (l : List Nat) (n : Nat), (l.map f).getD n 0 = f (l.getD n 0)
  | [], n => by simp [hf]
  | _ :: _, 0 => rfl
  | _ :: t, n + 1 => by simpa using getD_map_zero f hf t n

theorem getD_map_const_zero :
    ∀ (l : List Nat) (n : Nat), (l.map (fun _ => 0)).getD n 0 = 0
  | [], _ => rfl
  | _ :: _, 0 => rfl
  | _ :: t, n + 1 => by simp only [List.map_cons, List.getD_cons_succ]; exact getD_map_const_zero t n

theorem getD_replicate_zero : ∀ (n i : Nat), (List.replicate n (0 : Nat)).getD i 0 = 0
  | 0, _ => rfl
  | _ + 1, 0 => rfl
  | n + 1, i + 1 => by
      simp only [List.replicate_succ, List.getD_cons_succ]
      exact getD_replicate_zero n i

theorem getD_replicate_cases {α : Type} :
    ∀ (n : Nat) (a : α) (i : Nat) (d : α),
      (List.replicate n a).getD i d = a ∨ (List.replicate n a).getD i d = d
  | 0, _, _, _ => Or.inr rfl
  | _ + 1, _, 0, _ => Or.inl rfl
  | n + 1, a, i + 1, d => by
      simpa [List.replicate_succ] using getD_replicate_cases n a i d

theorem getD_drop_one {α : Type} :
    ∀ (l : List α) (k : Nat) (d : α), (l.drop 1).getD k d = l.getD (k + 1) d
  | [], _, _ => rfl
  | _ :: _, _, _ => rfl

/-- A `getD` that misses every element of the list and differs from the
default can not happen. -/
theorem getD_ne_of_not_mem {α : Type} :
    ∀ (l : List α) (q : Nat) (p d : α), p ∉ l → p ≠ d → l.getD q d ≠ p
  | [], _, _, _, _, hd => fun h => hd h.symm
  | a :: _, 0, p, _, hm, _ => fun h => hm (h ▸ List.mem_cons_self a _)
  | _ :: t, q + 1, p, d, hm, hd => by
      simpa using getD_ne_of_not_mem t q p d (fun h => hm (List.mem_cons_of_mem _ h)) hd

/-! ### scanFree / firstFreeSlice lemmas -/

theorem scanFree_none_all :
    ∀ (t : List Nat), scanFree t = none → ∀ v ∈ t, v ≠ 0
  | [], _, v, hv => absurd hv (by simp)
  | a :: t, h, v, hv => by
      by_cases ha : a = 0
      · simp [scanFree, ha] at h
      · rcases List.mem_cons.mp hv with rfl | hv'
        · exact ha
        · have ht : scanFree t = none := by
            simp only [scanFree, if_neg ha] at h
            exact Option.map_eq_none'.mp h
          exact scanFree_none_all t ht v hv'

theorem scanFree_some_spec :
    ∀ (t : List Nat) (j : Nat), scanFree t = some j →
      t.getD j 0 = 0 ∧ j < t.length ∧ ∀ k, k < j → t.getD k 0 ≠ 0
  | [], j, h => by simp [scanFree] at h
  | a :: t, j, h => by
      by_cases ha : a = 0
      · simp only [scanFree, if_pos ha, Option.some.injEq] at h
        subst h
        exact ⟨ha, by simp, fun k hk => absurd hk (by omega)⟩
      · simp only [scanFree, if_neg ha] at h
        rcases Option.map_eq_some'.mp h with ⟨j', hj', rfl⟩
        obtain ⟨h0, hlen, hlt⟩ := scanFree_some_spec t j' hj'
        refine ⟨by simpa using h0, by simpa using hlen, ?_⟩
        intro k hk
        match k with
        | 0 => simpa using ha
        | k + 1 => simpa using hlt k (by omega)

theorem scanFree_set_nonzero :
    ∀ (t : List Nat) (k : Nat), t.getD k 0 ≠ 0 → scanFree (t.set k 1) = scanFree t
  | [], _, _ => rfl
  | a :: t, 0, h => by
      have ha : a ≠ 0 := by simpa using h
      simp [scanFree, if_neg ha]
  | a :: t, k + 1, h => by
      have ih := scanFree_set_nonzero t k (by simpa using h)
      by_cases ha : a = 0 <;> simp [scanFree, ha, ih]

theorem countP_set_nonzero :
    ∀ (t : List Nat) (k : Nat), t.getD k 0 ≠ 0 →
      (t.set k 1).countP (fun v => !(v == 0)) = t.countP (fun v => !(v == 0))
  | [], _, _ => rfl
  | a :: t, 0, h => by
      have ha : a ≠ 0 := by simpa using h
      simp [List.countP_cons, ha]
  | a :: t, k + 1, h => by
      have ih := countP_set_nonzero t k (by simpa using h)
      simp [List.countP_cons, ih]

theorem countP_nonzero_eq_length (t : List Nat) (h : ∀ v ∈ t, v ≠ 0) :
    t.countP (fun v => !(v == 0)) = t.length :=
  List.countP_eq_length.mpr (fun v hv => by simpa using h v hv)

/-- Marking the page found by the free scan leaves the scan result unchanged:
either the write lands on index 0 (leaving the slice untouched) or on an
index whose slice entry was already nonzero. -/
theorem firstFreeSlice_set_one (s : List Nat) :
    firstFreeSlice (s.set (firstFreeSlice s) 1) = firstFreeSlice s := by
  match s with
  | [] => rfl
  | a :: t =>
      show firstFreeSlice ((a :: t).set ((scanFree t).getD 0) 1) = (scanFree t).getD 0
      match hsf : scanFree t with
      | none => simp [firstFreeSlice, hsf]
      | some 0 => simp [firstFreeSlice, hsf]
      | some (j + 1) =>
          obtain ⟨_, _, hlt⟩ := scanFree_some_spec t (j + 1) hsf
          have hj : t.getD j 0 ≠ 0 := hlt j (by omega)
          simp [firstFreeSlice, hsf, scanFree_set_nonzero t j hj]

/-- Marking the page found by the free scan never changes the used count. -/
theorem usedCount_set_ffs (s : List Nat) (hs : scanFree (s.drop 1) ≠ none) :
    usedCount (s.set (firstFreeSlice s) 1) = usedCount s := by
  match s with
  | [] => exact absurd rfl hs
  | a :: t =>
      show usedCount ((a :: t).set ((scanFree t).getD 0) 1) = usedCount (a :: t)
      match hsf : scanFree t with
      | none => exact absurd hsf hs
      | some 0 => simp [usedCount, hsf]
      | some (j + 1) =>
          obtain ⟨_, _, hlt⟩ := scanFree_some_spec t (j + 1) hsf
          have hj : t.getD j 0 ≠ 0 := hlt j (by omega)
          simp [usedCount, hsf, countP_set_nonzero t j hj]

/-- If the exhaustion assert does not fire, it still does not fire after the
loop body's status write (the write never increases the used count). -/
theorem check_false_preserved (pm : PageManager) (s : List Nat)
    (hlen : s.length = pm.num_pages) (h : allPagesInUseCheck pm s = false) :
    allPagesInUseCheck pm (s.set (firstFreeSlice s) 1) = false := by
  match hsf : scanFree (s.drop 1) with
  | some j =>
      have hne : scanFree (s.drop 1) ≠ none := by rw [hsf]; simp
      have := usedCount_set_ffs s hne
      simpa [allPagesInUseCheck, this] using h
  | none =>
      match s, hlen with
      | [], _ => simpa using h
      | a :: t, hlen =>
          exfalso
          have hall : ∀ v ∈ t, v ≠ 0 := scanFree_none_all t (by simpa using hsf)
          have hcount : usedCount (a :: t) = t.length := by
            simpa [usedCount] using countP_nonzero_eq_length t hall
          have hnp : pm.num_pages = t.length + 1 := by simpa using hlen.symm
          rw [allPagesInUseCheck, hcount, hnp] at h
          simp at h

/-! ### releaseLoop lemmas -/

/-- Every status write in the release loop writes `0`. -/
theorem releaseLoop_status_zero_or (slot : Nat) :
    ∀ (fuel i : Nat) (status : List Nat) (rows : List (List Nat)) (p : Nat),
      ((releaseLoop slot fuel i status rows).1).getD p 0 = 0 ∨
      ((releaseLoop slot fuel i status rows).1).getD p 0 = status.getD p 0
  | 0, _, _, _, _ => Or.inr rfl
  | fuel + 1, i, status, rows, p => by
      rw [releaseLoop]
      rcases releaseLoop_status_zero_or slot fuel (i + 1)
          (status.set ((rows.getD slot []).getD i 0) 0)
          (rows.set slot ((rows.getD slot []).map (fun _ => 0))) p with h | h
      · exact Or.inl h
      · rw [h]
        by_cases hp : p = (rows.getD slot []).getD i 0
        · subst hp
          exact Or.inl (getD_set_default status _ 0)
        · exact Or.inr (getD_set_ne status _ p 0 0 hp)

theorem releaseLoop_status_length (slot : Nat) :
    ∀ (fuel i : Nat) (status : List Nat) (rows : List (List Nat)),
      ((releaseLoop slot fuel i status rows).1).length = status.length
  | 0, _, _, _ => rfl
  | fuel + 1, i, status, rows => by
      rw [releaseLoop]
      rw [releaseLoop_status_length slot fuel (i + 1) _ _]
      exact List.length_set status _ 0

theorem releaseLoop_rows_length (slot : Nat) :
    ∀ (fuel i : Nat) (status : List Nat) (rows : List (List Nat)),
      ((releaseLoop slot fuel i status rows).2).length = rows.length
  | 0, _, _, _ => rfl
  | fuel + 1, i, status, rows => by
      rw [releaseLoop]
      rw [releaseLoop_rows_length slot fuel (i + 1) _ _]
      exact List.length_set rows _ _

/-- The release loop touches no mapping row other than `slot`'s. -/
theorem releaseLoop_rows_frame (slot : Nat) :
    ∀ (fuel i : Nat) (status : List Nat) (rows : List (List Nat)) (s : Nat), s ≠ slot →
      ((releaseLoop slot fuel i status rows).2).getD s [] = rows.getD s []
  | 0, _, _, _, _, _ => rfl
  | fuel + 1, i, status, rows, s, hs => by
      rw [releaseLoop]
      rw [releaseLoop_rows_frame slot fuel (i + 1) _ _ s hs]
      exact getD_set_ne rows slot s _ [] hs

/-- The length of `slot`'s row is preserved by the release loop (the mass
clear broadcasts over the row in place). -/
theorem releaseLoop_row_length (slot : Nat) :
    ∀ (fuel i : Nat) (status : List Nat) (rows : List (List Nat)),
      (((releaseLoop slot fuel i status rows).2).getD slot []).length =
        (rows.getD slot []).length
  | 0, _, _, _ => rfl
  | fuel + 1, i, status, rows => by
      rw [releaseLoop]
      rw [releaseLoop_row_length slot fuel (i + 1) _ _]
      by_cases h : slot < rows.length
      · rw [getD_set_self rows slot _ [] h, List.length_map]
      · rw [List.set_eq_of_length_le (by omega)]

/-- Status entries at indices other than `0` and the entries of `slot`'s
row are untouched by the release loop. -/
theorem releaseLoop_status_frame (slot : Nat) :
    ∀ (fuel i : Nat) (status : List Nat) (rows : List (List Nat)) (p : Nat),
      p ≠ 0 → (∀ q, (rows.getD slot []).getD q 0 ≠ p) →
      ((releaseLoop slot fuel i status rows).1).getD p 0 = status.getD p 0
  | 0, _, _, _, _, _, _ => rfl
  | fuel + 1, i, status, rows, p, hp, hrow => by
      rw [releaseLoop]
      have hclear : ∀ q,
          (((rows.set slot ((rows.getD slot []).map (fun _ => 0)))).getD slot []).getD q 0 ≠ p := by
        intro q
        by_cases h : slot < rows.length
        · rw [getD_set_self rows slot _ [] h, getD_map_const_zero]
          exact fun h0 => hp h0.symm
        · rw [List.set_eq_of_length_le (by omega)]
          exact hrow q
      rw [releaseLoop_status_frame slot fuel (i + 1) _ _ p hp hclear]
      exact getD_set_ne status _ p 0 0 (fun h => hrow i h.symm)

/-- If the first entry of `slot`'s row is `j` and the loop runs at least
once, page `j`'s status ends up `0`. -/
theorem releaseLoop_frees_first (slot : Nat) (fuel : Nat) (status : List Nat)
    (rows : List (List Nat)) (j : Nat) (hj : (rows.getD slot []).getD 0 0 = j) :
    ((releaseLoop slot (fuel + 1) 0 status rows).1).getD j 0 = 0 := by
  rw [releaseLoop]
  rcases releaseLoop_status_zero_or slot fuel 1
      (status.set ((rows.getD slot []).getD 0 0) 0)
      (rows.set slot ((rows.getD slot []).map (fun _ => 0))) j with h | h
  · exact h
  · rw [h, hj]
    exact getD_set_default status j 0

/-- The release loop preserves the joint invariant "every status entry
past the sentinel is `0` and every mapping entry is `0`". -/
theorem releaseLoop_pres_inv (slot : Nat) :
    ∀ (fuel i : Nat) (status : List Nat) (rows : List (List Nat)),
      (∀ k, status.getD (k + 1) 0 = 0) → (∀ s q, (rows.getD s []).getD q 0 = 0) →
      (∀ k, ((releaseLoop slot fuel i status rows).1).getD (k + 1) 0 = 0) ∧
      (∀ s q, (((releaseLoop slot fuel i status rows).2).getD s []).getD q 0 = 0)
  | 0, _, _, _, hst, hrw => ⟨hst, hrw⟩
  | fuel + 1, i, status, rows, hst, hrw => by
      rw [releaseLoop]
      refine releaseLoop_pres_inv slot fuel (i + 1) _ _ ?_ ?_
      · intro k
        by_cases h : k + 1 = (rows.getD slot []).getD i 0
        · rw [← h] at *
          exact getD_set_default status (k + 1) 0
        · rw [getD_set_ne status _ (k + 1) 0 0 h]
          exact hst k
      · intro s q
        by_cases h : s = slot
        · rw [h]
          by_cases hl : slot < rows.length
          · rw [getD_set_self rows slot _ [] hl, getD_map_const_zero]
          · rw [List.set_eq_of_length_le (by omega)]
            exact hrw slot q
        · rw [getD_set_ne rows slot s _ [] h]
          exact hrw s q

/-! ### release_slot_pages corollaries -/

theorem release_status_length (slot : Nat) (T : PageState) :
    (release_slot_pages slot T).page_status.length = T.page_status.length :=
  releaseLoop_status_length slot _ 0 _ _

theorem release_rows_length (slot : Nat) (T : PageState) :
    (release_slot_pages slot T).seq_page_idx_mappings.length =
      T.seq_page_idx_mappings.length :=
  releaseLoop_rows_length slot _ 0 _ _

theorem release_row_length (slot : Nat) (T : PageState) :
    ((release_slot_pages slot T).seq_page_idx_mappings.getD slot []).length =
      (T.seq_page_idx_mappings.getD slot []).length :=
  releaseLoop_row_length slot _ 0 _ _

theorem release_status_zero_or (slot : Nat) (T : PageState) (p : Nat) :
    (release_slot_pages slot T).page_status.getD p 0 = 0 ∨
    (release_slot_pages slot T).page_status.getD p 0 = T.page_status.getD p 0 :=
  releaseLoop_status_zero_or slot _ 0 _ _ p

/-! ### prefillLoop lemmas -/

/-- The only exception the prefill loop raises is the exhaustion assert. -/
theorem prefillLoop_err_cases (pm : PageManager) (slot : Nat) :
    ∀ (fuel i : Nat) (status : List Nat) (rows : List (List Nat)) (last : Option Nat),
      (prefillLoop pm slot fuel i status rows last).2.2.2 = none ∨
      (prefillLoop pm slot fuel i status rows last).2.2.2 = some PMError.allPagesInUse
  | 0, _, _, _, _ => Or.inl rfl
  | fuel + 1, i, status, rows, last => by
      rw [prefillLoop]
      by_cases h : allPagesInUseCheck pm status
      · rw [if_pos h]
        exact Or.inr rfl
      · rw [if_neg h]
        exact prefillLoop_err_cases pm slot fuel (i + 1) _ _ _

/-- If the assert does not fire on entry, it never fires later: the loop's
status writes never increase the used count. -/
theorem prefillLoop_no_late_exhaust (pm : PageManager) (slot : Nat) :
    ∀ (fuel i : Nat) (status : List Nat) (rows : List (List Nat)) (last : Option Nat),
      status.length = pm.num_pages → allPagesInUseCheck pm status = false →
      (prefillLoop pm slot fuel i status rows last).2.2.2 = none
  | 0, _, _, _, _, _, _ => rfl
  | fuel + 1, i, status, rows, last, hlen, hchk => by
      rw [prefillLoop, if_neg (by rw [hchk]; exact Bool.false_ne_true)]
      exact prefillLoop_no_late_exhaust pm slot fuel (i + 1) _ _ _
        (by rw [List.length_set]; exact hlen)
        (check_false_preserved pm status hlen hchk)

/-- When the loop fires the assert, it fires on entry (iteration `i = 0`) and
returns status and rows unchanged. -/
theorem prefillLoop_exhaust_state (pm : PageManager) (slot : Nat)
    (fuel i : Nat) (status : List Nat) (rows : List (List Nat)) (last : Option Nat)
    (hlen : status.length = pm.num_pages)
    (herr : (prefillLoop pm slot fuel i status rows last).2.2.2 =
      some PMError.allPagesInUse) :
    (prefillLoop pm slot fuel i status rows last).1 = status ∧
    (prefillLoop pm slot fuel i status rows last).2.1 = rows := by
  match fuel with
  | 0 => simp [prefillLoop] at herr
  | fuel + 1 =>
      by_cases h : allPagesInUseCheck pm status
      · rw [prefillLoop, if_pos h]
        exact ⟨rfl, rfl⟩
      · have := prefillLoop_no_late_exhaust pm slot (fuel + 1) i status rows last hlen
          (Bool.of_not_eq_true h)
        rw [this] at herr
        cases herr

/-- Characterization of a successful prefill loop: every iteration picks the
same index `firstFreeSlice status` (marking it used leaves the scan result
unchanged), so the final status is a single write and the last `page_idx` is
that index whenever at least one iteration ran. -/
theorem prefillLoop_char (pm : PageManager) (slot : Nat) :
    ∀ (fuel i : Nat) (status : List Nat) (rows : List (List Nat)) (last : Option Nat),
      (prefillLoop pm slot fuel i status rows last).2.2.2 = none →
      (fuel = 0 ∧ (prefillLoop pm slot fuel i status rows last).1 = status ∧
        (prefillLoop pm slot fuel i status rows last).2.2.1 = last) ∨
      ((prefillLoop pm slot fuel i status rows last).1 =
          status.set (firstFreeSlice status) 1 ∧
        (prefillLoop pm slot fuel i status rows last).2.2.1 =
          some (firstFreeSlice status))
  | 0, _, _, _, _, _ => Or.inl ⟨rfl, rfl, rfl⟩
  | fuel + 1, i, status, rows, last, hok => by
      rw [prefillLoop] at hok ⊢
      by_cases h : allPagesInUseCheck pm status
      · rw [if_pos h] at hok
        cases hok
      · rw [if_neg h] at hok ⊢
        rcases prefillLoop_char pm slot fuel (i + 1)
            (status.set (firstFreeSlice status) 1)
            (rows.set slot ((rows.getD slot []).set i (firstFreeSlice status)))
            (some (firstFreeSlice status)) hok with ⟨_, hst, hlast⟩ | ⟨hst, hlast⟩
        · exact Or.inr ⟨hst, hlast⟩
        · refine Or.inr ⟨?_, ?_⟩
          · rw [hst, firstFreeSlice_set_one status, List.set_set]
          · rw [hlast, firstFreeSlice_set_one status]

/-- From iteration `1` on, the first entry of `slot`'s row is untouched by
the prefill loop. -/
theorem prefillLoop_row0_frame (pm : PageManager) (slot : Nat) :
    ∀ (fuel i : Nat) (status : List Nat) (rows : List (List Nat)) (last : Option Nat),
      1 ≤ i →
      (((prefillLoop pm slot fuel i status rows last).2.1).getD slot []).getD 0 0 =
        (rows.getD slot []).getD 0 0
  | 0, _, _, _, _, _ => rfl
  | fuel + 1, i, status, rows, last, hi => by
      rw [prefillLoop]
      by_cases h : allPagesInUseCheck pm status
      · rw [if_pos h]
      · rw [if_neg h]
        rw [prefillLoop_row0_frame pm slot fuel (i + 1) _ _ _ (by omega)]
        by_cases hl : slot < rows.length
        · rw [getD_set_self rows slot _ [] hl]
          exact getD_set_ne _ i 0 _ 0 (by omega)
        · rw [List.set_eq_of_length_le (by omega)]

/-- A successful prefill loop started at iteration `0` with at least one
iteration records `firstFreeSlice status` at position `0` of `slot`'s row. -/
theorem prefillLoop_row0 (pm : PageManager) (slot : Nat) (fuel : Nat)
    (status : List Nat) (rows : List (List Nat)) (last : Option Nat)
    (hslot : slot < rows.length) (hrow : 0 < (rows.getD slot []).length)
    (hok : (prefillLoop pm slot (fuel + 1) 0 status rows last).2.2.2 = none) :
    (((prefillLoop pm slot (fuel + 1) 0 status rows last).2.1).getD slot []).getD 0 0 =
      firstFreeSlice status := by
  rw [prefillLoop] at hok ⊢
  by_cases h : allPagesInUseCheck pm status
  · rw [if_pos h] at hok
    cases hok
  · rw [if_neg h]
    rw [prefillLoop_row0_frame pm slot fuel 1 _ _ _ (by omega)]
    rw [getD_set_self rows slot _ [] hslot]
    exact getD_set_self _ 0 _ 0 hrow

theorem prefillLoop_rows_length (pm : PageManager) (slot : Nat) :
    ∀ (fuel i : Nat) (status : List Nat) (rows : List (List Nat)) (last : Option Nat),
      ((prefillLoop pm slot fuel i status rows last).2.1).length = rows.length
  | 0, _, _, _, _ => rfl
  | fuel + 1, i, status, rows, last => by
      rw [prefillLoop]
      by_cases h : allPagesInUseCheck pm status
      · rw [if_pos h]
      · rw [if_neg h]
        rw [prefillLoop_rows_length pm slot fuel (i + 1) _ _ _]
        exact List.length_set rows _ _

/-- The prefill loop preserves the joint invariant "status past the sentinel
all zero, mapping entries all zero": under it the free scan always returns
index `0`, so both the status write and the row write write at/with `0`. -/
theorem prefillLoop_pres_inv (pm : PageManager) (slot : Nat) :
    ∀ (fuel i : Nat) (status : List Nat) (rows : List (List Nat)) (last : Option Nat),
      (∀ k, status.getD (k + 1) 0 = 0) → (∀ s q, (rows.getD s []).getD q 0 = 0) →
      (∀ k, ((prefillLoop pm slot fuel i status rows last).1).getD (k + 1) 0 = 0) ∧
      (∀ s q, (((prefillLoop pm slot fuel i status rows last).2.1).getD s []).getD q 0 = 0)
  | 0, _, _, _, _, hst, hrw => ⟨hst, hrw⟩
  | fuel + 1, i, status, rows, last, hst, hrw => by
      rw [prefillLoop]
      by_cases h : allPagesInUseCheck pm status
      · rw [if_pos h]
        exact ⟨hst, hrw⟩
      · rw [if_neg h]
        have hffs : firstFreeSlice status = 0 := by
          match hs : status.drop 1 with
          | [] => simp [firstFreeSlice, hs, scanFree]
          | a :: t =>
              have ha : a = 0 := by
                have := hst 0
                rw [← getD_drop_one status 0 0, hs] at this
                simpa using this
              simp [firstFreeSlice, hs, scanFree, ha]
        refine prefillLoop_pres_inv pm slot fuel (i + 1) _ _ _ ?_ ?_
        · intro k
          rw [hffs, getD_set_ne status 0 (k + 1) 1 0 (by omega)]
          exact hst k
        · intro s q
          rw [hffs]
          by_cases hsl : s = slot
          · rw [hsl]
            by_cases hl : slot < rows.length
            · rw [getD_set_self rows slot _ [] hl]
              by_cases hq : q = i
              · rw [hq]
                rcases Nat.lt_or_ge i (rows.getD slot []).length with hi | hi
                · rw [getD_set_self _ i 0 0 hi]
                · rw [List.set_eq_of_length_le (by omega)]
                  exact hrw slot i
              · rw [getD_set_ne _ i q 0 0 hq]
                exact hrw slot q
            · rw [List.set_eq_of_length_le (by omega)]
              exact hrw slot q
          · rw [getD_set_ne rows slot s _ [] hsl]
            exact hrw s q

/-! ### reserve_prefill_slot_pages characterization -/

theorem prefill_eq_of_loop_err (pm : PageManager) (slot L : Nat) (T : PageState)
    (st : List Nat) (rws : List (List Nat)) (last : Option Nat) (e : PMError)
    (h : prefillLoop pm slot (ceilDiv L pm.page_size) 0
        (release_slot_pages slot T).page_status
        (release_slot_pages slot T).seq_page_idx_mappings none = (st, rws, last, some e)) :
    reserve_prefill_slot_pages pm slot L T =
      ({ release_slot_pages slot T with
          page_status := st, seq_page_idx_mappings := rws }, some e) := by
  unfold reserve_prefill_slot_pages
  simp only [h]

theorem prefill_eq_of_loop_ok_some (pm : PageManager) (slot L : Nat) (T : PageState)
    (st : List Nat) (rws : List (List Nat)) (j : Nat)
    (h : prefillLoop pm slot (ceilDiv L pm.page_size) 0
        (release_slot_pages slot T).page_status
        (release_slot_pages slot T).seq_page_idx_mappings none = (st, rws, some j, none)) :
    reserve_prefill_slot_pages pm slot L T =
      ({ page_status := st
         seq_page_idx_mappings := rws
         seq_lengths := (release_slot_pages slot T).seq_lengths.set slot L
         seq_num_pages :=
           (release_slot_pages slot T).seq_num_pages.set slot (ceilDiv L pm.page_size)
         seq_page_indices := (release_slot_pages slot T).seq_page_indices.set slot j
         seq_page_slice_indices :=
           (release_slot_pages slot T).seq_page_slice_indices.set slot
             (sliceIdx L pm.page_size) }, none) := by
  unfold reserve_prefill_slot_pages
  simp only [h]

theorem prefill_eq_of_loop_ok_none (pm : PageManager) (slot L : Nat) (T : PageState)
    (st : List Nat) (rws : List (List Nat))
    (h : prefillLoop pm slot (ceilDiv L pm.page_size) 0
        (release_slot_pages slot T).page_status
        (release_slot_pages slot T).seq_page_idx_mappings none = (st, rws, none, none)) :
    reserve_prefill_slot_pages pm slot L T =
      ({ page_status := st
         seq_page_idx_mappings := rws
         seq_lengths := (release_slot_pages slot T).seq_lengths.set slot L
         seq_num_pages :=
           (release_slot_pages slot T).seq_num_pages.set slot (ceilDiv L pm.page_size)
         seq_page_indices := (release_slot_pages slot T).seq_page_indices
         seq_page_slice_indices := (release_slot_pages slot T).seq_page_slice_indices },
        some PMError.nameError) := by
  unfold reserve_prefill_slot_pages
  simp only [h]

/-! ### reserve_decode_step_pages characterization -/

/-- Whether a decode step completes or raises, the caller's table carries
the in-place incremented lengths and an untouched mapping array (the loop's
mapping write lands in an advanced-indexing copy). -/
theorem decode_lengths_rows_eq (pm : PageManager) (T : PageState) :
    (reserve_decode_step_pages pm T).1.seq_lengths = decodeLengths T ∧
    (reserve_decode_step_pages pm T).1.seq_page_idx_mappings =
      T.seq_page_idx_mappings := by
  unfold reserve_decode_step_pages
  split_ifs <;> exact ⟨rfl, rfl⟩

/-- A decode step that completes returns the recomputed page counts and
slice indices of lines 146-147 (the return statement reads the rebound
locals). -/
theorem decode_ok_arrays (pm : PageManager) (T : PageState)
    (hok : (reserve_decode_step_pages pm T).2 = none) :
    (reserve_decode_step_pages pm T).1.seq_num_pages = decodeNumPages pm T ∧
    (reserve_decode_step_pages pm T).1.seq_page_slice_indices =
      decodeSliceIndices pm T := by
  unfold reserve_decode_step_pages at hok ⊢
  split_ifs at hok ⊢ <;> exact ⟨rfl, rfl⟩

theorem decode_status_cases (pm : PageManager) (T : PageState) :
    (reserve_decode_step_pages pm T).1.page_status = T.page_status ∨
    (reserve_decode_step_pages pm T).1.page_status =
      T.page_status.set (firstFreeSlice T.page_status) 1 := by
  unfold reserve_decode_step_pages
  split_ifs <;> first | exact Or.inl rfl | exact Or.inr rfl

/-- When decode raises the exhaustion assert, it does so before any status,
mapping or page-index write (the second-iteration assert can not be the one
that fires, because the first iteration's write never increases the used
count), so the caller's table holds exactly the in-place length
increment. -/
theorem decode_exhaust_state (pm : PageManager) (T : PageState)
    (hlen : T.page_status.length = pm.num_pages)
    (herr : (reserve_decode_step_pages pm T).2 = some PMError.allPagesInUse) :
    (reserve_decode_step_pages pm T).1 = decodeRaiseBase T := by
  unfold reserve_decode_step_pages at herr ⊢
  by_cases h1 : decodeNumNew pm T = 0
  · rw [if_pos h1] at herr
    cases herr
  · rw [if_neg h1] at herr ⊢
    by_cases h2 : allPagesInUseCheck pm T.page_status
    · rw [if_pos h2]
    · rw [if_neg h2] at herr ⊢
      by_cases h3 : decodeNumNew pm T = 1
      · rw [if_pos h3] at herr
        cases herr
      · rw [if_neg h3] at herr
        rw [check_false_preserved pm T.page_status hlen (Bool.of_not_eq_true h2),
          if_neg Bool.false_ne_true] at herr
        cases herr

/-! ### prefill projections -/

theorem prefill_status_rows_eq (pm : PageManager) (slot L : Nat) (T : PageState) :
    (reserve_prefill_slot_pages pm slot L T).1.page_status =
      (prefillLoop pm slot (ceilDiv L pm.page_size) 0
        (release_slot_pages slot T).page_status
        (release_slot_pages slot T).seq_page_idx_mappings none).1 ∧
    (reserve_prefill_slot_pages pm slot L T).1.seq_page_idx_mappings =
      (prefillLoop pm slot (ceilDiv L pm.page_size) 0
        (release_slot_pages slot T).page_status
        (release_slot_pages slot T).seq_page_idx_mappings none).2.1 := by
  match h : prefillLoop pm slot (ceilDiv L pm.page_size) 0
      (release_slot_pages slot T).page_status
      (release_slot_pages slot T).seq_page_idx_mappings none with
  | (st, rws, last, some e) =>
      rw [prefill_eq_of_loop_err pm slot L T st rws last e h]
      exact ⟨rfl, rfl⟩
  | (st, rws, some j, none) =>
      rw [prefill_eq_of_loop_ok_some pm slot L T st rws j h]
      exact ⟨rfl, rfl⟩
  | (st, rws, none, none) =>
      rw [prefill_eq_of_loop_ok_none pm slot L T st rws h]
      exact ⟨rfl, rfl⟩

theorem prefill_lengths_nums_cases (pm : PageManager) (slot L : Nat) (T : PageState) :
    ((reserve_prefill_slot_pages pm slot L T).1.seq_lengths =
        (release_slot_pages slot T).seq_lengths ∧
      (reserve_prefill_slot_pages pm slot L T).1.seq_num_pages =
        (release_slot_pages slot T).seq_num_pages) ∨
    ((reserve_prefill_slot_pages pm slot L T).1.seq_lengths =
        (release_slot_pages slot T).seq_lengths.set slot L ∧
      (reserve_prefill_slot_pages pm slot L T).1.seq_num_pages =
        (release_slot_pages slot T).seq_num_pages.set slot (ceilDiv L pm.page_size)) := by
  match h : prefillLoop pm slot (ceilDiv L pm.page_size) 0
      (release_slot_pages slot T).page_status
      (release_slot_pages slot T).seq_page_idx_mappings none with
  | (st, rws, last, some e) =>
      rw [prefill_eq_of_loop_err pm slot L T st rws last e h]
      exact Or.inl ⟨rfl, rfl⟩
  | (st, rws, some j, none) =>
      rw [prefill_eq_of_loop_ok_some pm slot L T st rws j h]
      exact Or.inr ⟨rfl, rfl⟩
  | (st, rws, none, none) =>
      rw [prefill_eq_of_loop_ok_none pm slot L T st rws h]
      exact Or.inr ⟨rfl, rfl⟩

/-! ### invariants of reachable tables -/

theorem ceilDiv_zero_left : ∀ (ps : Nat), ceilDiv 0 ps = 0
  | 0 => rfl
  | ps + 1 => by
      show (0 + (ps + 1) - 1) / (ps + 1) = 0
      exact Nat.div_eq_of_lt (by omega)

/-- Under the tail-zero invariant, the free scan finds slice index `0`. -/
theorem ffs_zero_of_tail (status : List Nat)
    (h : ∀ k, status.getD (k + 1) 0 = 0) : firstFreeSlice status = 0 := by
  match hs : status.drop 1 with
  | [] => simp [firstFreeSlice, hs, scanFree]
  | a :: t =>
      have ha : a = 0 := by
        have h0 := h 0
        rw [← getD_drop_one status 0 0, hs] at h0
        simpa using h0
      simp [firstFreeSlice, hs, scanFree, ha]

/-- Invariant of every reachable table: the status of every page other than
the sentinel is `Free`, and every mapping entry is the sentinel `0`.  The
free scan of lines 116/155 returns an index into `page_status[1:]` without
re-offsetting it, so from the zeroed table the scan always answers `0`: only
the sentinel's status cell is ever written `1` and only `0` is ever recorded
in a mapping row. -/
theorem reachable_inv (pm : PageManager) (T : PageState) (h : Reachable pm T) :
    (∀ k, T.page_status.getD (k + 1) 0 = 0) ∧
    (∀ s i, (T.seq_page_idx_mappings.getD s []).getD i 0 = 0) := by
  induction h with
  | init =>
      refine ⟨fun k => getD_replicate_zero pm.num_pages (k + 1), fun s i => ?_⟩
      show ((List.replicate pm.slots
        (List.replicate pm.max_pages_per_slot 0)).getD s []).getD i 0 = 0
      rcases getD_replicate_cases pm.slots (List.replicate pm.max_pages_per_slot 0) s []
        with h | h
      · rw [h]
        exact getD_replicate_zero _ i
      · rw [h]
        rfl
  | release slot hT ih =>
      exact releaseLoop_pres_inv slot _ 0 _ _ ih.1 ih.2
  | prefill slot L hT ih =>
      rename_i T'
      obtain ⟨hst, hrw⟩ := prefill_status_rows_eq pm slot L T'
      rw [hst, hrw]
      have hrel := releaseLoop_pres_inv slot (T'.seq_num_pages.getD slot 0) 0
        T'.page_status T'.seq_page_idx_mappings ih.1 ih.2
      exact prefillLoop_pres_inv pm slot (ceilDiv L pm.page_size) 0 _ _ none hrel.1 hrel.2
  | decode hT ih =>
      rename_i T'
      have hrows := (decode_lengths_rows_eq pm T').2
      refine ⟨?_, by rw [hrows]; exact ih.2⟩
      rcases decode_status_cases pm T' with hs | hs
      · rw [hs]
        exact ih.1
      · rw [hs, ffs_zero_of_tail T'.page_status ih.1]
        intro k
        rw [getD_set_ne T'.page_status 0 (k + 1) 1 0 (by omega)]
        exact ih.1 k

theorem ceil_inv_set (ps : Nat) (nums lens : List Nat) (slot v : Nat)
    (hlen : nums.length = lens.length)
    (hinv : ∀ s, nums.getD s 0 = ceilDiv (lens.getD s 0) ps) :
    ∀ s, (nums.set slot (ceilDiv v ps)).getD s 0 =
      ceilDiv ((lens.set slot v).getD s 0) ps := by
  intro s
  by_cases hs : s = slot
  · subst hs
    by_cases hl : s < lens.length
    · rw [getD_set_self lens s v 0 hl, getD_set_self nums s _ 0 (by omega)]
    · rw [List.set_eq_of_length_le (l := lens) (by omega),
        List.set_eq_of_length_le (l := nums) (by omega)]
      exact hinv s
  · rw [getD_set_ne nums slot s _ 0 hs, getD_set_ne lens slot s v 0 hs]
    exact hinv s

theorem ceil_inv_release (pm : PageManager) (slot : Nat) (T : PageState)
    (hlen : T.seq_num_pages.length = T.seq_lengths.length)
    (hinv : ∀ s, T.seq_num_pages.getD s 0 = ceilDiv (T.seq_lengths.getD s 0) pm.page_size) :
    (release_slot_pages slot T).seq_num_pages.length =
      (release_slot_pages slot T).seq_lengths.length ∧
    ∀ s, (release_slot_pages slot T).seq_num_pages.getD s 0 =
      ceilDiv ((release_slot_pages slot T).seq_lengths.getD s 0) pm.page_size := by
  constructor
  · show (T.seq_num_pages.set slot 0).length = (T.seq_lengths.set slot 0).length
    rw [List.length_set, List.length_set]
    exact hlen
  · intro s
    show (T.seq_num_pages.set slot 0).getD s 0 =
      ceilDiv ((T.seq_lengths.set slot 0).getD s 0) pm.page_size
    have h0 := ceil_inv_set pm.page_size T.seq_num_pages T.seq_lengths slot 0 hlen hinv s
    rwa [ceilDiv_zero_left] at h0

/-- Invariant of every reachable table: `seq_num_pages` is the ceiling of
`seq_lengths / page_size`, slotwise (`0` for empty slots). -/
theorem reachable_ok_ceil (pm : PageManager) (T : PageState) (h : ReachableOk pm T) :
    T.seq_num_pages.length = T.seq_lengths.length ∧
    ∀ s, T.seq_num_pages.getD s 0 = ceilDiv (T.seq_lengths.getD s 0) pm.page_size := by
  induction h with
  | init =>
      refine ⟨rfl, fun s => ?_⟩
      show (List.replicate pm.slots 0).getD s 0 =
        ceilDiv ((List.replicate pm.slots 0).getD s 0) pm.page_size
      rw [getD_replicate_zero, ceilDiv_zero_left]
  | release slot hT ih =>
      rename_i T0
      exact ceil_inv_release pm slot T0 ih.1 ih.2
  | prefill slot L hT heq ih =>
      rename_i T0 T1
      have h1 : (reserve_prefill_slot_pages pm slot L T0).1 = T1 := by rw [heq]
      rw [← h1]
      have hrel := ceil_inv_release pm slot T0 ih.1 ih.2
      rcases prefill_lengths_nums_cases pm slot L T0 with ⟨hl, hn⟩ | ⟨hl, hn⟩
      · rw [hl, hn]
        exact hrel
      · rw [hl, hn]
        constructor
        · rw [List.length_set, List.length_set]
          exact hrel.1
        · exact ceil_inv_set pm.page_size _ _ slot L hrel.1 hrel.2
  | decode hT heq ih =>
      rename_i T0 T1
      have h1 : (reserve_decode_step_pages pm T0).1 = T1 := by rw [heq]
      have h2 : (reserve_decode_step_pages pm T0).2 = none := by rw [heq]
      rw [← h1]
      obtain ⟨hn, _⟩ := decode_ok_arrays pm T0 h2
      have hl := (decode_lengths_rows_eq pm T0).1
      rw [hl, hn]
      refine ⟨List.length_map _ _, fun s => ?_⟩
      exact getD_map_zero (fun v => ceilDiv v pm.page_size)
        (ceilDiv_zero_left pm.page_size) (decodeLengths T0) s

/-- Projections of `release_slot_pages` as definitional equations. -/
theorem release_nums_eq (slot : Nat) (T : PageState) :
    (release_slot_pages slot T).seq_num_pages = T.seq_num_pages.set slot 0 := rfl

/-! ### Claim theorems -/

/-- Claim C1: in every Page Table reachable from the zeroed initial table by
any sequence of `release_slot_pages`, `reserve_prefill_slot_pages` and
`reserve_decode_step_pages` calls, no page index other than the sentinel `0`
appears in the mapping rows of two different slots simultaneously. -/
theorem no_double_ownership (pm : PageManager) (T : PageState)
    (h : Reachable pm T) (p : Nat) (hp : p ≠ 0) :
    ¬ ∃ s1 s2 i1 i2 : Nat, s1 ≠ s2 ∧
      (T.seq_page_idx_mappings.getD s1 []).getD i1 0 = p ∧
      (T.seq_page_idx_mappings.getD s2 []).getD i2 0 = p := by
  rintro ⟨s1, s2, i1, i2, _, h1, _⟩
  have hz := (reachable_inv pm T h).2 s1 i1
  rw [hz] at h1
  exact hp h1.symm

/-- Claim C1 witness: the zeroed Scenario A table is reachable and carries no
doubly-owned page index 1. -/
theorem no_double_ownership_witness :
    (1 : Nat) ≠ 0 ∧
    ¬ ∃ s1 s2 i1 i2 : Nat, s1 ≠ s2 ∧
      (((init_page_state pmScenarioA).seq_page_idx_mappings.getD s1 []).getD i1 0 = 1) ∧
      (((init_page_state pmScenarioA).seq_page_idx_mappings.getD s2 []).getD i2 0 = 1) :=
  ⟨by decide, no_double_ownership pmScenarioA (init_page_state pmScenarioA)
    Reachable.init 1 (by decide)⟩

/-- Claim C2 (code evaluated at the claim's own Scenario A input): with
`num_pages=5, page_size=4, slots=2` and the zeroed table, prefilling slot 0
with `true_length=5` does not allocate pages 1 and 2: the free scan returns
offsets into `page_status[1:]` that are never re-offset, so both iterations
mark the sentinel page 0 Used and record 0 in the mapping; pages 1 and 2
stay Free and `seq_page_indices[0] = 0`. -/
theorem prefill_scenario_a_eval :
    reserve_prefill_slot_pages pmScenarioA 0 5 (init_page_state pmScenarioA) =
      (prefillA, none) := by decide

/-- Claim C3 (code evaluated at a two-page slot): releasing slot 0, which
owns pages 1 and 2, frees page 1 only; the first loop iteration clears the
whole mapping row, so the second iteration reads the sentinel instead of
page 2 and page 2 stays Used. -/
theorem release_leak_eval :
    release_slot_pages 0 tableReleaseLeak =
      (⟨[0, 0, 1], [[0, 0]], [0], [0], [0], [0]⟩ : PageState) := by decide

/-- Claim C4 counterexample: on `tableDecodeFull` the decode step raises the
pool-exhaustion assert, yet the state at the raise already carries the
incremented `seq_lengths` — the prior table is not left unchanged, so the
call is not all-or-nothing. -/
theorem decode_exhaustion_mutates_table :
    (reserve_decode_step_pages pmOneSlot tableDecodeFull).2 =
      some PMError.allPagesInUse ∧
    (reserve_decode_step_pages pmOneSlot tableDecodeFull).1.seq_lengths ≠
      tableDecodeFull.seq_lengths := by decide

/-- Claim C4 (amended): when no free page is available, both reservation
operations fail with the fixed-message pool-exhaustion assertion (which
reports no used/total counts), and the in-place mutations already performed
by the failing call remain committed: a failing prefill has committed
exactly the initial release of the slot (no page-status change of its own),
and a failing decode has committed exactly the in-place `seq_lengths`
increment — the page-count/slice recomputations are local rebinds the raise
discards, and no page-status, mapping or page-index write has happened. -/
theorem pool_exhaustion_partial_commit (pm : PageManager) (slot L : Nat)
    (T : PageState) (hlen : T.page_status.length = pm.num_pages) :
    ((reserve_prefill_slot_pages pm slot L T).2 = some PMError.allPagesInUse →
      (reserve_prefill_slot_pages pm slot L T).1 = release_slot_pages slot T) ∧
    ((reserve_decode_step_pages pm T).2 = some PMError.allPagesInUse →
      (reserve_decode_step_pages pm T).1 = decodeRaiseBase T) := by
  constructor
  · intro herr
    match h : prefillLoop pm slot (ceilDiv L pm.page_size) 0
        (release_slot_pages slot T).page_status
        (release_slot_pages slot T).seq_page_idx_mappings none with
    | (st, rws, last, some e) =>
        rw [prefill_eq_of_loop_err pm slot L T st rws last e h] at herr ⊢
        have he : e = PMError.allPagesInUse := by
          injection herr
        subst he
        have hlen1 : (release_slot_pages slot T).page_status.length = pm.num_pages := by
          rw [release_status_length]
          exact hlen
        have hex := prefillLoop_exhaust_state pm slot (ceilDiv L pm.page_size) 0
          (release_slot_pages slot T).page_status
          (release_slot_pages slot T).seq_page_idx_mappings none hlen1 (by rw [h])
        rw [h] at hex
        have h1 : st = (release_slot_pages slot T).page_status := hex.1
        have h2 : rws = (release_slot_pages slot T).seq_page_idx_mappings := hex.2
        rw [h1, h2]
    | (st, rws, some j, none) =>
        rw [prefill_eq_of_loop_ok_some pm slot L T st rws j h] at herr
        simp at herr
    | (st, rws, none, none) =>
        rw [prefill_eq_of_loop_ok_none pm slot L T st rws h] at herr
        simp at herr
  · exact decode_exhaust_state pm T hlen

/-- Claim C4 (amended) witness: at the concrete exhaustion input the decode
step's committed state is exactly the in-place length increment. -/
theorem pool_exhaustion_partial_commit_witness :
    tableDecodeFull.page_status.length = pmOneSlot.num_pages ∧
    (reserve_decode_step_pages pmOneSlot tableDecodeFull).1 =
      decodeRaiseBase tableDecodeFull :=
  ⟨by decide, (pool_exhaustion_partial_commit pmOneSlot 0 0 tableDecodeFull
    (by decide)).2 (by decide)⟩

/-- Claim C5 (code evaluated at a reachable table): the very first prefill on
the zeroed two-page table sets `page_status[0] = 1` — the sentinel page 0 is
allocated, because the free-scan index into `page_status[1:]` is used
without adding the offset back. -/
theorem prefill_marks_sentinel_used :
    reserve_prefill_slot_pages pmTwoPages 0 1 (init_page_state pmTwoPages) =
      ((⟨[1, 0], [[0]], [1], [1], [0], [0]⟩ : PageState), none) := by decide

/-- Claim C6 (code evaluated at the zeroed table): a decode step on a table
whose slots are all empty leaves lengths and page counts at 0 but rewrites
`seq_page_slice_indices` of the empty slots to `(0 - 1) % page_size = 3` —
empty slots are not left unchanged. -/
theorem decode_modifies_empty_slots :
    reserve_decode_step_pages pmScenarioA (init_page_state pmScenarioA) =
      ((⟨[0, 0, 0, 0, 0], [[0, 0], [0, 0]], [0, 0], [0, 0], [0, 0], [3, 3]⟩ :
        PageState), none) := by decide

/-- Claim C7 counterexample: the invariant fails on a table produced by
`release_slot_pages` after a raising decode step.  With `page_size = 1` and
both slots prefilled to length 1 (both prefills succeed), the next decode
step increments both lengths in place to `[2, 2]` and then raises the tuple
`IndexError` at `updating_slots[1]`, discarding the local page-count
recomputation; the caller keeps the stale `seq_num_pages = [1, 1]`, and
releasing slot 0 then produces a table with `seq_num_pages[1] = 1` while
`ceil(seq_lengths[1] / page_size) = 2`. -/
theorem seq_num_pages_ceil_cex :
    (reserve_prefill_slot_pages pmTinyPages 0 1 (init_page_state pmTinyPages)).2 =
      none ∧
    (reserve_prefill_slot_pages pmTinyPages 1 1
      (reserve_prefill_slot_pages pmTinyPages 0 1 (init_page_state pmTinyPages)).1).2 =
      none ∧
    (reserve_decode_step_pages pmTinyPages chainT2).2 =
      some PMError.tupleIndexError ∧
    chainT4.seq_num_pages.getD 1 0 = 1 ∧
    ceilDiv (chainT4.seq_lengths.getD 1 0) pmTinyPages.page_size = 2 := by decide

/-- Claim C7 (amended): `seq_num_pages[s] = ceil(seq_lengths[s] / page_size)`
holds for every slot in every table produced by the three operations along
any sequence of calls in which no call raised, starting from the zeroed
construction-time table.  (A decode step that raises commits its in-place
length increments but not the page-count recomputation, after which the
invariant can fail — hence the raise-free restriction.) -/
theorem seq_num_pages_eq_ceil_ok (pm : PageManager) (T : PageState)
    (h : ReachableOk pm T) (s : Nat) :
    T.seq_num_pages.getD s 0 = ceilDiv (T.seq_lengths.getD s 0) pm.page_size :=
  (reachable_ok_ceil pm T h).2 s

/-- Claim C7 (amended) witness: the invariant at the table the Scenario A
prefill returns, slot 0 (2 = ceil(5 / 4)). -/
theorem seq_num_pages_eq_ceil_ok_witness :
    prefillA.seq_num_pages.getD 0 0 =
      ceilDiv (prefillA.seq_lengths.getD 0 0) pmScenarioA.page_size :=
  seq_num_pages_eq_ceil_ok pmScenarioA prefillA
    (ReachableOk.prefill 0 5 ReachableOk.init (by decide)) 0

/-- Claim C8 (code evaluated at an out-of-bounds request): with
`max_pages_per_prefill = 1`, prefilling `true_length = 5` needs 2 pages yet
the call returns no error and commits `seq_num_pages[0] = 2` — there is no
`InvalidRequest` check anywhere in the operation. -/
theorem prefill_exceeding_max_prefill_succeeds :
    pmSmallPrefill.max_pages_per_prefill = 1 ∧
    (reserve_prefill_slot_pages pmSmallPrefill 0 5
      (init_page_state pmSmallPrefill)).2 = none ∧
    (reserve_prefill_slot_pages pmSmallPrefill 0 5
      (init_page_state pmSmallPrefill)).1.seq_num_pages.getD 0 0 = 2 := by decide

/-- Claim C9: for every table, slot and length for which the prefill
reservation succeeds, releasing the slot afterwards leaves every page that
was Free before the reservation Free again — the prefill's allocation is
fully reclaimed.  (In the traced code every iteration of a single prefill
allocates the same scan index, and the release's first iteration frees
exactly that index, so nothing leaks.) -/
theorem prefill_release_round_trip (pm : PageManager) (slot L : Nat)
    (T T' : PageState)
    (hslot : slot < T.seq_page_idx_mappings.length)
    (hrow : 0 < (T.seq_page_idx_mappings.getD slot []).length)
    (hnum : slot < T.seq_num_pages.length)
    (hok : reserve_prefill_slot_pages pm slot L T = (T', none))
    (p : Nat) (hfree : T.page_status.getD p 0 = 0) :
    (release_slot_pages slot T').page_status.getD p 0 = 0 := by
  match h : prefillLoop pm slot (ceilDiv L pm.page_size) 0
      (release_slot_pages slot T).page_status
      (release_slot_pages slot T).seq_page_idx_mappings none with
  | (st, rws, last, some e) =>
      rw [prefill_eq_of_loop_err pm slot L T st rws last e h] at hok
      simp at hok
  | (st, rws, none, none) =>
      rw [prefill_eq_of_loop_ok_none pm slot L T st rws h] at hok
      simp at hok
  | (st, rws, some j, none) =>
      rw [prefill_eq_of_loop_ok_some pm slot L T st rws j h] at hok
      injection hok with h1 _
      subst h1
      obtain ⟨n, hn⟩ : ∃ n, ceilDiv L pm.page_size = n + 1 := by
        rcases Nat.eq_zero_or_pos (ceilDiv L pm.page_size) with h0 | hpos
        · rw [h0] at h
          simp [prefillLoop] at h
        · exact ⟨ceilDiv L pm.page_size - 1, by omega⟩
      rw [hn] at h ⊢
      have hchar := prefillLoop_char pm slot (n + 1) 0
        (release_slot_pages slot T).page_status
        (release_slot_pages slot T).seq_page_idx_mappings none (by rw [h])
      rw [h] at hchar
      rcases hchar with ⟨habs, _, _⟩ | ⟨hst, hlast⟩
      · omega
      · have hst' : st = (release_slot_pages slot T).page_status.set
            (firstFreeSlice (release_slot_pages slot T).page_status) 1 := hst
        have hj : some j =
            some (firstFreeSlice (release_slot_pages slot T).page_status) := hlast
        have hj' : j = firstFreeSlice (release_slot_pages slot T).page_status := by
          injection hj
        have hrow0 := prefillLoop_row0 pm slot n
          (release_slot_pages slot T).page_status
          (release_slot_pages slot T).seq_page_idx_mappings none
          (by rw [release_rows_length]; exact hslot)
          (by rw [release_row_length]; exact hrow)
          (by rw [h])
        rw [h] at hrow0
        have hrow0' : (rws.getD slot []).getD 0 0 =
            firstFreeSlice (release_slot_pages slot T).page_status := hrow0
        have hfuel : ((release_slot_pages slot T).seq_num_pages.set slot
            (n + 1)).getD slot 0 = n + 1 := by
          apply getD_set_self
          rw [release_nums_eq, List.length_set]
          exact hnum
        show (releaseLoop slot
          (((release_slot_pages slot T).seq_num_pages.set slot (n + 1)).getD slot 0) 0
          st rws).1.getD p 0 = 0
        rw [hfuel]
        by_cases hpj : p = j
        · subst hpj
          apply releaseLoop_frees_first slot n st rws p
          rw [hrow0', hj']
        · rcases releaseLoop_status_zero_or slot (n + 1) 0 st rws p with hz | hz
          · exact hz
          · rw [hz, hst',
              getD_set_ne _ _ p 1 0 (fun hc => hpj (hc.trans hj'.symm))]
            rcases release_status_zero_or slot T p with hz2 | hz2
            · exact hz2
            · rw [hz2]
              exact hfree

/-- Claim C9 witness: the Scenario A prefill succeeds; page 3 was Free
before it and is Free again after the release. -/
theorem prefill_release_round_trip_witness :
    (init_page_state pmScenarioA).page_status.getD 3 0 = 0 ∧
    (release_slot_pages 0 prefillA).page_status.getD 3 0 = 0 :=
  ⟨by decide, prefill_release_round_trip pmScenarioA 0 5
    (init_page_state pmScenarioA) prefillA (by decide) (by decide) (by decide)
    (by decide) 3 (by decide)⟩

/-- Claim C10 counterexample: on `tableFrameCex`, page 0 does not appear in
slot 0's mapping row, yet releasing slot 0 changes `page_status[0]` from 1
to 0 (the second loop iteration reads the mass-cleared row and frees the
sentinel). -/
theorem release_frame_cex :
    (0 : Nat) ∉ tableFrameCex.seq_page_idx_mappings.getD 0 [] ∧
    (release_slot_pages 0 tableFrameCex).page_status.getD 0 0 ≠
      tableFrameCex.page_status.getD 0 0 := by decide

/-- Claim C10 (amended): releasing a slot leaves the four per-slot
bookkeeping entries and the mapping row of every other slot unchanged, and
leaves `page_status[p]` unchanged for every page `p` other than the sentinel
`0` that does not appear in the released slot's mapping row.  (The sentinel
must be excluded: from the second loop iteration on, the release reads the
mass-cleared row and writes `page_status[0]`.) -/
theorem release_frame_effect (slot : Nat) (T : PageState) :
    (∀ s, s ≠ slot →
      (release_slot_pages slot T).seq_lengths.getD s 0 = T.seq_lengths.getD s 0 ∧
      (release_slot_pages slot T).seq_num_pages.getD s 0 =
        T.seq_num_pages.getD s 0 ∧
      (release_slot_pages slot T).seq_page_indices.getD s 0 =
        T.seq_page_indices.getD s 0 ∧
      (release_slot_pages slot T).seq_page_slice_indices.getD s 0 =
        T.seq_page_slice_indices.getD s 0 ∧
      (release_slot_pages slot T).seq_page_idx_mappings.getD s [] =
        T.seq_page_idx_mappings.getD s []) ∧
    (∀ p, p ≠ 0 → p ∉ T.seq_page_idx_mappings.getD slot [] →
      (release_slot_pages slot T).page_status.getD p 0 =
        T.page_status.getD p 0) := by
  constructor
  · intro s hs
    exact ⟨getD_set_ne T.seq_lengths slot s 0 0 hs,
      getD_set_ne T.seq_num_pages slot s 0 0 hs,
      getD_set_ne T.seq_page_indices slot s 0 0 hs,
      getD_set_ne T.seq_page_slice_indices slot s 0 0 hs,
      releaseLoop_rows_frame slot _ 0 _ _ s hs⟩
  · intro p hp hmem
    exact releaseLoop_status_frame slot _ 0 _ _ p hp
      (fun q => getD_ne_of_not_mem _ q p 0 hmem hp)

/-- Claim C10 (amended) witness: releasing slot 0 of `tableFrameWit` leaves
slot 1's length and free page 2's status unchanged. -/
theorem release_frame_effect_witness :
    (1 : Nat) ≠ 0 ∧
    (release_slot_pages 0 tableFrameWit).seq_lengths.getD 1 0 =
      tableFrameWit.seq_lengths.getD 1 0 ∧
    (release_slot_pages 0 tableFrameWit).page_status.getD 2 0 =
      tableFrameWit.page_status.getD 2 0 :=
  ⟨by decide, ((release_frame_effect 0 tableFrameWit).1 1 (by decide)).1,
    (release_frame_effect 0 tableFrameWit).2 2 (by decide) (by decide)⟩
